import Mathlib

/-!
# angular-ui-overlay: the `uiOverlay` directive (`src/ui-overlay.js`)

A shallow embedding of the directive's link function, of its helper
`calculateOuterDimensions`, and of the callbacks it registers (the deferred
initial setup, the window resize handler and the `$watch` listener).

Modelling conventions.

* DOM nodes are referred to by a `NodeId`; the document is a map from node
  ids to node records (`Dom`).  `offsetTop`, `offsetLeft`, `offsetWidth` and
  `offsetHeight` are DOM `long`s, so they and their sums are exact integers
  (`Int`).  They are laid out by the browser and only *read* by the directive.
* `Math.min.apply(Math, [])` is `Infinity` and `Math.max.apply(Math, [])` is
  `-Infinity`, hence results of the aggregation live in `JSNum`.
* A JavaScript `throw` is an `Except.error`; stateful code returns the state it
  had reached when the exception was thrown.
* `undefined` array entries (`allChildren[idx]` out of range) are `none`.
-/

namespace UiOverlay

/-! ## JavaScript values -/

/-- Errors thrown by the modelled code. -/
inductive JSError where
  /-- An error thrown by the directive itself with `throw new Error(msg)`. -/
  | error (msg : String)
  /-- A property read on `undefined` (`TypeError`). -/
  | typeError
  /-- An exception raised by the host framework while evaluating an expression. -/
  | evalError
  deriving DecidableEq, Repr

/-- The JavaScript numbers that can arise from integer offsets. -/
inductive JSNum where
  | fin (i : Int)
  | posInf
  | negInf
  | nan
  deriving DecidableEq, Repr

namespace JSNum

/-- JavaScript `a - b`. -/
def sub : JSNum → JSNum → JSNum
  | fin a, fin b => fin (a - b)
  | nan, _ => nan
  | _, nan => nan
  | posInf, posInf => nan
  | negInf, negInf => nan
  | posInf, _ => posInf
  | negInf, _ => negInf
  | fin _, posInf => negInf
  | fin _, negInf => posInf

/-- JavaScript number to string conversion (as used by `n + 'px'`). -/
def toStr : JSNum → String
  | fin i => toString i
  | posInf => "Infinity"
  | negInf => "-Infinity"
  | nan => "NaN"

end JSNum

/-- The value of `Math.min.apply(Math, xs)` on an array of integers. -/
def mathMin : List Int → JSNum
  | [] => JSNum.posInf
  | x :: xs => JSNum.fin (xs.foldl min x)

/-- The value of `Math.max.apply(Math, xs)` on an array of integers. -/
def mathMax : List Int → JSNum
  | [] => JSNum.negInf
  | x :: xs => JSNum.fin (xs.foldl max x)

/-! ## The DOM -/

abbrev NodeId := Nat

/-- The inline style properties the directive writes (`''` when unset). -/
structure Style where
  position : String := ""
  display : String := ""
  top : String := ""
  left : String := ""
  width : String := ""
  height : String := ""
  deriving DecidableEq, Repr

/-- A DOM element: its attribute names, its layout box, its child elements and
its inline style. -/
structure Node where
  attributes : List String := []
  offsetTop : Int := 0
  offsetLeft : Int := 0
  offsetWidth : Int := 0
  offsetHeight : Int := 0
  children : List NodeId := []
  style : Style := {}
  deriving DecidableEq, Repr

abbrev Dom := NodeId → Node

/-- Replace the inline style of one node. -/
def Dom.setStyle (dom : Dom) (n : NodeId) (f : Style → Style) : Dom :=
  fun m => if m = n then { dom m with style := f (dom m).style } else dom m

/-! ## `calculateOuterDimensions` -/

/-- The per-element rectangle built by the first `map` (lines 31-38). -/
structure ElemRect where
  top : Int
  bottom : Int
  left : Int
  right : Int
  deriving DecidableEq, Repr

/-- The rectangle returned by `calculateOuterDimensions` (lines 40-53). -/
structure Rect where
  top : JSNum
  bottom : JSNum
  left : JSNum
  right : JSNum
  deriving DecidableEq, Repr

/-- The callback of `elements.map` (lines 31-38): reading a property of
`undefined` throws. -/
def elementRect (dom : Dom) : Option NodeId → Except JSError ElemRect
  | none => .error JSError.typeError
  | some e => .ok
      { top := (dom e).offsetTop
        bottom := (dom e).offsetTop + (dom e).offsetHeight
        left := (dom e).offsetLeft
        right := (dom e).offsetLeft + (dom e).offsetWidth }

/-- The call `elements.map(...)` with a callback that may throw, left to right. -/
def mapRects (dom : Dom) : List (Option NodeId) → Except JSError (List ElemRect)
  | [] => .ok []
  | e :: es =>
    match elementRect dom e with
    | .error err => .error err
    | .ok r =>
      match mapRects dom es with
      | .error err => .error err
      | .ok rs => .ok (r :: rs)

/-- The helper `calculateOuterDimensions(elements)` (lines 30-54). -/
def calculateOuterDimensions (dom : Dom) (elements : List (Option NodeId)) :
    Except JSError Rect :=
  match mapRects dom elements with
  | .error err => .error err
  | .ok rects => .ok
      { top := mathMin (rects.map fun r => r.top)
        bottom := mathMax (rects.map fun r => r.bottom)
        left := mathMin (rects.map fun r => r.left)
        right := mathMax (rects.map fun r => r.right) }

/-- The rectangle `elementRect` builds for a present element. -/
def rectOf (dom : Dom) (e : NodeId) : ElemRect :=
  { top := (dom e).offsetTop
    bottom := (dom e).offsetTop + (dom e).offsetHeight
    left := (dom e).offsetLeft
    right := (dom e).offsetLeft + (dom e).offsetWidth }

/-! ## The directive's configuration, closure and environment -/

/-- The object the `ui-overlay` expression evaluates to:
`{ active: boolean, [ children: array ] }`.  `active` is only used in
conditions, so it is its truthiness; `children` is `none` when absent. -/
structure Config where
  active : Bool
  children : Option (List Nat) := none
  deriving DecidableEq, Repr

/-- The variables of one call of the link function that its callbacks close
over: `attrs.uiOverlay`, `config`, `overlayContainer`, `overlayElements`. -/
structure Instance where
  uiOverlay : String
  config : Config
  overlayContainer : NodeId
  overlayElements : List (Option NodeId)
  deriving DecidableEq, Repr

/-- The callbacks handed to `$timeout`. -/
inductive Task where
  /-- The callback of lines 108-122. -/
  | initialSetup (inst : Instance)
  /-- The callback of lines 130-133. -/
  | watchShow (inst : Instance)
  deriving DecidableEq, Repr

/-- Everything the directive reads or changes: the document, the scope
(`scope.$eval` and the field `scope._uiOverlayAttr`), and the registrations it
makes with the framework and the window. -/
structure World where
  dom : Dom
  /-- The result of `scope.$eval(expr)`: may raise, may yield `undefined`. -/
  scopeEval : String → Except JSError (Option Config)
  /-- The field `scope._uiOverlayAttr`. -/
  scopeAttr : Option String := none
  /-- Callbacks queued by `$timeout`, oldest first. -/
  timeouts : List Task := []
  /-- Listeners added by `angular.element(window).on('resize', ...)`. -/
  resizeListeners : List Instance := []
  /-- Listeners added by `scope.$watch(attrs.uiOverlay, ...)`. -/
  watches : List Instance := []
  /-- Listeners added by `scope.$on('collapseEndGlobal', ...)`. -/
  collapseListeners : List Instance := []

/-- The inner loop of lines 71-77: does some attribute have the name
`overlay-container`? -/
def hasContainerAttr : List String → Bool
  | [] => false
  | a :: as => if a = "overlay-container" then true else hasContainerAttr as

/-- The loop of lines 69-79 over `childrenElements`: the first child carrying
the attribute becomes `overlayContainer` and is spliced out of the array.
Returns `none` when `overlayContainer` stays `undefined`. -/
def scanChildren (dom : Dom) : List NodeId → Option (NodeId × List NodeId)
  | [] => none
  | child :: rest =>
    if hasContainerAttr (dom child).attributes then some (child, rest)
    else
      match scanChildren dom rest with
      | none => none
      | some (c, rest') => some (c, child :: rest')

/-- Lines 85-95: the elements to overlay.  `childrenElements` is the spliced
array, `allChildren` the result of a fresh `element.children()`. -/
def resolveOverlayElements (element : NodeId) (childrenElements allChildren : List NodeId)
    (config : Config) : List (Option NodeId) :=
  match config.children with
  | none => [some element]
  | some [] => childrenElements.map some
  | some idxs => idxs.map fun idx => allChildren[idx]?

/-- The link function (lines 56-138).  Returns the closure it created, or the
error thrown, together with the state reached. -/
def link (element : NodeId) (uiOverlay : Option String) (w : World) :
    Except JSError Instance × World :=
  match uiOverlay with -- `!attrs.uiOverlay` holds for `undefined` and for `''`
  | none =>
    (.error (.error "Please provide a value or expression for the ui-overlay directive."), w)
  | some attr =>
    if attr = "" then
      (.error (.error "Please provide a value or expression for the ui-overlay directive."), w)
    else
      let w1 : World := { w with scopeAttr := some attr }
      match w1.scopeEval attr with
      | .error err => (.error err, w1)
      | .ok config =>
        match scanChildren w1.dom (w1.dom element).children with
        | none =>
          (.error (.error ("Please provide an element with an overlay-container attribute " ++
            "as a direct child of the ui-overlay element.")), w1)
        | some (overlayContainer, childrenElements) =>
          match config with
          | none => (.error .typeError, w1)
          | some cfg =>
            let inst : Instance :=
              { uiOverlay := attr
                config := cfg
                overlayContainer := overlayContainer
                overlayElements :=
                  resolveOverlayElements element childrenElements (w1.dom element).children cfg }
            (.ok inst,
              { w1 with
                timeouts := w1.timeouts ++ [Task.initialSetup inst]
                resizeListeners := w1.resizeListeners ++ [inst]
                watches := w1.watches ++ [inst] })

/-- The closure `updateOverlay` (lines 100-106). -/
def updateOverlay (inst : Instance) (dom : Dom) : Except JSError Unit × Dom :=
  match calculateOuterDimensions dom inst.overlayElements with
  | .error err => (.error err, dom)
  | .ok outerDimensions =>
    (.ok (), dom.setStyle inst.overlayContainer fun st =>
      { st with
        top := outerDimensions.top.toStr ++ "px"
        left := outerDimensions.left.toStr ++ "px"
        width := (outerDimensions.right.sub outerDimensions.left).toStr ++ "px"
        height := (outerDimensions.bottom.sub outerDimensions.top).toStr ++ "px" })

/-- The listener of `collapseEndGlobal` (lines 117-121). -/
def collapseHandler (inst : Instance) (w : World) : Except JSError Unit × World :=
  match w.scopeAttr with
  | none => (.error .typeError, w)
  | some attr =>
    match w.scopeEval attr with
    | .error err => (.error err, w)
    | .ok none => (.error .typeError, w)
    | .ok (some cfg) =>
      if cfg.active then
        let r := updateOverlay inst w.dom
        (r.1, { w with dom := r.2 })
      else (.ok (), w)

/-- The window resize listener (lines 124-126). -/
def resizeHandler (inst : Instance) (w : World) : Except JSError Unit × World :=
  let r := updateOverlay inst w.dom
  (r.1, { w with dom := r.2 })

/-- The `$watch` listener (lines 128-137); `newValue` is `none` when the
expression evaluates to `undefined`. -/
def watchListener (inst : Instance) (newValue : Option Config) (w : World) : World :=
  match newValue with
  | some v =>
    if v.active then { w with timeouts := w.timeouts ++ [Task.watchShow inst] }
    else { w with dom := w.dom.setStyle inst.overlayContainer fun st =>
      { st with display := "none" } }
  | none => { w with dom := w.dom.setStyle inst.overlayContainer fun st =>
      { st with display := "none" } }

/-- Run one `$timeout` callback. -/
def runTask : Task → World → Except JSError Unit × World
  | .initialSetup inst, w =>
    let dom1 := w.dom.setStyle inst.overlayContainer fun st =>
      { st with position := "absolute"
                display := if inst.config.active then "table" else "none" }
    let r : Except JSError Unit × Dom :=
      if inst.config.active then updateOverlay inst dom1 else (.ok (), dom1)
    match r.1 with
    | .error err => (.error err, { w with dom := r.2 })
    | .ok _ =>
      (.ok (), { w with dom := r.2, collapseListeners := w.collapseListeners ++ [inst] })
  | .watchShow inst, w =>
    let r := updateOverlay inst w.dom
    match r.1 with
    | .error err => (.error err, { w with dom := r.2 })
    | .ok _ =>
      (.ok (), { w with dom := r.2.setStyle inst.overlayContainer fun st =>
        { st with display :=
            if (r.2 inst.overlayContainer).children.length > 0 then "table" else "block" } })

/-- Let every queued `$timeout` callback run, oldest first; an exception in a
callback ends that callback only. -/
def flushTimeouts (w : World) : World :=
  w.timeouts.foldl (fun acc t => (runTask t acc).2) { w with timeouts := [] }

/-- An element carries the `overlay-container` marker attribute. -/
def Marked (dom : Dom) (c : NodeId) : Prop := "overlay-container" ∈ (dom c).attributes

instance (dom : Dom) (c : NodeId) : Decidable (Marked dom c) := by
  unfold Marked; infer_instance

/-! ## Example documents -/

/-- Two elements with the boxes `{top:10, left:0, w:50, h:20}` (node 0) and
`{top:0, left:30, w:10, h:10}` (every other node). -/
def twoBoxes : Dom := fun n =>
  if n = 0 then { offsetTop := 10, offsetLeft := 0, offsetWidth := 50, offsetHeight := 20 }
  else { offsetTop := 0, offsetLeft := 30, offsetWidth := 10, offsetHeight := 10 }

/-- The markup of the directive's doc comment (lines 19-24): host 0 with the
children 1 (carrying `overlay-container`), 2, 3 and 4. -/
def docExample : Dom := fun n =>
  match n with
  | 0 => { attributes := ["ui-overlay"], children := [1, 2, 3, 4],
           offsetTop := 0, offsetLeft := 0, offsetWidth := 200, offsetHeight := 90 }
  | 1 => { attributes := ["overlay-container"] }
  | 2 => { offsetTop := 0, offsetLeft := 0, offsetWidth := 200, offsetHeight := 30 }
  | 3 => { offsetTop := 30, offsetLeft := 10, offsetWidth := 100, offsetHeight := 30 }
  | 4 => { offsetTop := 60, offsetLeft := 20, offsetWidth := 150, offsetHeight := 30 }
  | _ => {}

/-- A scope in which every expression evaluates to the given configuration. -/
def constWorld (dom : Dom) (cfg : Config) : World :=
  { dom := dom, scopeEval := fun _ => .ok (some cfg) }

/-- A host (node 0) with two children, none of which carries the
`overlay-container` attribute. -/
def noContainer : Dom := fun n =>
  match n with
  | 0 => { attributes := ["ui-overlay"], children := [1, 2] }
  | 1 => { attributes := ["class"] }
  | _ => {}

/-- The closure of a link call on the doc comment's markup that measures the
children 2, 3 and 4 and drives the container 1. -/
def docInstance (active : Bool) : Instance :=
  { uiOverlay := "cfg"
    config := { active := active, children := some [] }
    overlayContainer := 1
    overlayElements := [some 2, some 3, some 4] }

/-- Continue with the closure of a successful link call; stop where it threw. -/
def afterLink (r : Except JSError Instance × World) (k : Instance → World → World) : World :=
  match r.1 with
  | .ok inst => k inst r.2
  | .error _ => r.2

/-- The doc comment's markup is linked with `active` false and the initial
setup runs.  Then the `$watch` listener sees `active` become true and, before
the callback it queued has run, sees `active` become false; at last the queued
callback runs. -/
def toggleCallbackLast : World :=
  afterLink (link 0 (some "cfg") (constWorld docExample { active := false })) fun inst w =>
    flushTimeouts
      (watchListener inst (some { active := false })
        (watchListener inst (some { active := true }) (flushTimeouts w)))

/-- The same toggle, with the queued callback run before `active` becomes
false. -/
def toggleCallbackFirst : World :=
  afterLink (link 0 (some "cfg") (constWorld docExample { active := false })) fun inst w =>
    flushTimeouts
      (watchListener inst (some { active := false })
        (flushTimeouts (watchListener inst (some { active := true }) (flushTimeouts w))))

/-! ## Helper lemmas on the aggregation -/

theorem foldl_min_le_init (xs : List Int) (a : Int) : xs.foldl min a ≤ a := by
  induction xs generalizing a with
  | nil => simp
  | cons x xs ih => exact le_trans (ih (min a x)) (min_le_left a x)

theorem foldl_min_le_of_mem (xs : List Int) (a y : Int) (h : y ∈ xs) :
    xs.foldl min a ≤ y := by
  induction xs generalizing a with
  | nil => cases h
  | cons x xs ih =>
    rcases List.mem_cons.mp h with rfl | h
    · exact le_trans (foldl_min_le_init xs (min a y)) (min_le_right a y)
    · exact ih (min a x) h

theorem foldl_min_mem (xs : List Int) (a : Int) :
    xs.foldl min a = a ∨ xs.foldl min a ∈ xs := by
  induction xs generalizing a with
  | nil => simp
  | cons x xs ih =>
    rcases ih (min a x) with h | h
    · rcases min_choice a x with h2 | h2
      · rw [h2] at h
        left
        simp only [List.foldl, h2]
        exact h
      · rw [h2] at h
        right
        simp only [List.foldl, h2, h]
        exact List.mem_cons_self _ _
    · right; exact List.mem_cons_of_mem _ h

theorem le_foldl_max_init (xs : List Int) (a : Int) : a ≤ xs.foldl max a := by
  induction xs generalizing a with
  | nil => simp
  | cons x xs ih => exact le_trans (le_max_left a x) (ih (max a x))

theorem le_foldl_max_of_mem (xs : List Int) (a y : Int) (h : y ∈ xs) :
    y ≤ xs.foldl max a := by
  induction xs generalizing a with
  | nil => cases h
  | cons x xs ih =>
    rcases List.mem_cons.mp h with rfl | h
    · exact le_trans (le_max_right a y) (le_foldl_max_init xs (max a y))
    · exact ih (max a x) h

theorem foldl_max_mem (xs : List Int) (a : Int) :
    xs.foldl max a = a ∨ xs.foldl max a ∈ xs := by
  induction xs generalizing a with
  | nil => simp
  | cons x xs ih =>
    rcases ih (max a x) with h | h
    · rcases max_choice a x with h2 | h2
      · rw [h2] at h
        left
        simp only [List.foldl, h2]
        exact h
      · rw [h2] at h
        right
        simp only [List.foldl, h2, h]
        exact List.mem_cons_self _ _
    · right; exact List.mem_cons_of_mem _ h

/-- On a non-empty array `Math.min.apply` returns the least entry. -/
theorem mathMin_spec (xs : List Int) (h : xs ≠ []) :
    ∃ m : Int, mathMin xs = JSNum.fin m ∧ m ∈ xs ∧ ∀ y ∈ xs, m ≤ y := by
  cases xs with
  | nil => exact absurd rfl h
  | cons x xs =>
    refine ⟨xs.foldl min x, rfl, ?_, ?_⟩
    · rcases foldl_min_mem xs x with h1 | h1
      · rw [h1]; exact List.mem_cons_self _ _
      · exact List.mem_cons_of_mem _ h1
    · intro y hy
      rcases List.mem_cons.mp hy with rfl | hy
      · exact foldl_min_le_init xs y
      · exact foldl_min_le_of_mem xs x y hy

/-- On a non-empty array `Math.max.apply` returns the greatest entry. -/
theorem mathMax_spec (xs : List Int) (h : xs ≠ []) :
    ∃ m : Int, mathMax xs = JSNum.fin m ∧ m ∈ xs ∧ ∀ y ∈ xs, y ≤ m := by
  cases xs with
  | nil => exact absurd rfl h
  | cons x xs =>
    refine ⟨xs.foldl max x, rfl, ?_, ?_⟩
    · rcases foldl_max_mem xs x with h1 | h1
      · rw [h1]; exact List.mem_cons_self _ _
      · exact List.mem_cons_of_mem _ h1
    · intro y hy
      rcases List.mem_cons.mp hy with rfl | hy
      · exact le_foldl_max_init xs y
      · exact le_foldl_max_of_mem xs x y hy

/-- When every entry is an element, the first `map` does not throw. -/
theorem mapRects_some (dom : Dom) (ids : List NodeId) :
    mapRects dom (ids.map some) = .ok (ids.map (rectOf dom)) := by
  induction ids with
  | nil => rfl
  | cons e es ih => simp [mapRects, elementRect, ih, rectOf]

/-- When some entry is `undefined`, the first `map` throws. -/
theorem mapRects_none (dom : Dom) (els : List (Option NodeId)) (h : none ∈ els) :
    mapRects dom els = .error JSError.typeError := by
  induction els with
  | nil => cases h
  | cons e es ih =>
    cases e with
    | none => simp [mapRects, elementRect]
    | some x =>
      have h2 : none ∈ es := by
        rcases List.mem_cons.mp h with h1 | h1
        · cases h1
        · exact h1
      simp [mapRects, elementRect, ih h2]

/-- The second `map`s of `calculateOuterDimensions` on present elements: the
four results are finite, attained by some element and bound all elements. -/
theorem calculateOuterDimensions_some (dom : Dom) (ids : List NodeId) (h : ids ≠ []) :
    ∃ t b l r : Int,
      calculateOuterDimensions dom (ids.map some) =
        .ok { top := .fin t, bottom := .fin b, left := .fin l, right := .fin r } ∧
      ((∃ e ∈ ids, t = (dom e).offsetTop) ∧ ∀ e ∈ ids, t ≤ (dom e).offsetTop) ∧
      ((∃ e ∈ ids, l = (dom e).offsetLeft) ∧ ∀ e ∈ ids, l ≤ (dom e).offsetLeft) ∧
      ((∃ e ∈ ids, b = (dom e).offsetTop + (dom e).offsetHeight) ∧
        ∀ e ∈ ids, (dom e).offsetTop + (dom e).offsetHeight ≤ b) ∧
      ((∃ e ∈ ids, r = (dom e).offsetLeft + (dom e).offsetWidth) ∧
        ∀ e ∈ ids, (dom e).offsetLeft + (dom e).offsetWidth ≤ r) := by
  have hne : ∀ f : ElemRect → Int, (ids.map (rectOf dom)).map f ≠ [] := by
    intro f hf
    apply h
    simpa using hf
  obtain ⟨t, ht, htm, htl⟩ := mathMin_spec _ (hne fun r => r.top)
  obtain ⟨b, hb, hbm, hbl⟩ := mathMax_spec _ (hne fun r => r.bottom)
  obtain ⟨l, hl, hlm, hll⟩ := mathMin_spec _ (hne fun r => r.left)
  obtain ⟨r, hr, hrm, hrl⟩ := mathMax_spec _ (hne fun r => r.right)
  refine ⟨t, b, l, r, ?_, ⟨?_, ?_⟩, ⟨?_, ?_⟩, ⟨?_, ?_⟩, ⟨?_, ?_⟩⟩
  · simp only [calculateOuterDimensions, mapRects_some, ht, hb, hl, hr]
  · simp only [List.mem_map] at htm
    obtain ⟨_, ⟨e, he, rfl⟩, hx⟩ := htm
    exact ⟨e, he, hx.symm⟩
  · intro e he
    exact htl _ (List.mem_map.mpr ⟨rectOf dom e, List.mem_map.mpr ⟨e, he, rfl⟩, rfl⟩)
  · simp only [List.mem_map] at hlm
    obtain ⟨_, ⟨e, he, rfl⟩, hx⟩ := hlm
    exact ⟨e, he, hx.symm⟩
  · intro e he
    exact hll _ (List.mem_map.mpr ⟨rectOf dom e, List.mem_map.mpr ⟨e, he, rfl⟩, rfl⟩)
  · simp only [List.mem_map] at hbm
    obtain ⟨_, ⟨e, he, rfl⟩, hx⟩ := hbm
    exact ⟨e, he, hx.symm⟩
  · intro e he
    exact hbl _ (List.mem_map.mpr ⟨rectOf dom e, List.mem_map.mpr ⟨e, he, rfl⟩, rfl⟩)
  · simp only [List.mem_map] at hrm
    obtain ⟨_, ⟨e, he, rfl⟩, hx⟩ := hrm
    exact ⟨e, he, hx.symm⟩
  · intro e he
    exact hrl _ (List.mem_map.mpr ⟨rectOf dom e, List.mem_map.mpr ⟨e, he, rfl⟩, rfl⟩)

/-! ## Helper lemmas on the container scan and on `link` -/

theorem hasContainerAttr_iff (as : List String) :
    hasContainerAttr as = true ↔ "overlay-container" ∈ as := by
  induction as with
  | nil => simp [hasContainerAttr]
  | cons a as ih =>
    by_cases h : a = "overlay-container"
    · simp [hasContainerAttr, h]
    · have h2 : ¬ "overlay-container" = a := fun e => h e.symm
      simp [hasContainerAttr, h, h2, ih]

theorem hasContainerAttr_eq_decide (dom : Dom) (c : NodeId) :
    hasContainerAttr (dom c).attributes = decide (Marked dom c) := by
  by_cases h : Marked dom c
  · simp [h, (hasContainerAttr_iff _).mpr h]
  · have h2 : hasContainerAttr (dom c).attributes ≠ true :=
      fun e => h ((hasContainerAttr_iff _).mp e)
    simp [h, h2]

/-- Without a marked child the scan leaves `overlayContainer` undefined. -/
theorem scanChildren_none (dom : Dom) (cs : List NodeId)
    (h : ∀ c ∈ cs, ¬ Marked dom c) : scanChildren dom cs = none := by
  induction cs with
  | nil => rfl
  | cons c cs ih =>
    have hc : ¬ Marked dom c := h c (List.mem_cons_self _ _)
    have ih2 := ih fun d hd => h d (List.mem_cons_of_mem _ hd)
    simp [scanChildren, hasContainerAttr_eq_decide, hc, ih2]

/-- With a marked child the scan finds a container. -/
theorem scanChildren_some (dom : Dom) (cs : List NodeId)
    (h : ∃ c ∈ cs, Marked dom c) :
    ∃ c rest, scanChildren dom cs = some (c, rest) := by
  induction cs with
  | nil =>
    obtain ⟨c, hc, _⟩ := h
    cases hc
  | cons c cs ih =>
    by_cases hc : Marked dom c
    · exact ⟨c, cs, by simp [scanChildren, hasContainerAttr_eq_decide, hc]⟩
    · have h2 : ∃ d ∈ cs, Marked dom d := by
        obtain ⟨d, hd, hm⟩ := h
        rcases List.mem_cons.mp hd with rfl | hd
        · exact absurd hm hc
        · exact ⟨d, hd, hm⟩
      obtain ⟨k, rest, hk⟩ := ih h2
      exact ⟨k, c :: rest, by simp [scanChildren, hasContainerAttr_eq_decide, hc, hk]⟩

/-- With exactly one marked child the scan returns it and leaves all other
children, in order. -/
theorem scanChildren_unique (dom : Dom) (cs : List NodeId)
    (h : (cs.filter fun c => decide (Marked dom c)).length = 1) :
    ∃ k, scanChildren dom cs = some (k, cs.filter fun c => !decide (Marked dom c)) ∧
      (cs.filter fun c => decide (Marked dom c)) = [k] := by
  induction cs with
  | nil => simp at h
  | cons c cs ih =>
    by_cases hc : Marked dom c
    · have h0 : (cs.filter fun c => decide (Marked dom c)) = [] := by
        simp [List.filter, hc] at h
        simpa using h
      have h1 : (cs.filter fun c => !decide (Marked dom c)) = cs := by
        rw [List.filter_eq_self]
        intro d hd
        have : d ∉ cs.filter fun c => decide (Marked dom c) := by simp [h0]
        simp only [List.mem_filter, not_and] at this
        simpa using this hd
      refine ⟨c, ?_, ?_⟩
      · simp [scanChildren, hasContainerAttr_eq_decide, hc, h1]
      · simp [List.filter, hc, h0]
    · have h2 : (cs.filter fun c => decide (Marked dom c)).length = 1 := by
        simpa [List.filter, hc] using h
      obtain ⟨k, hk, hk2⟩ := ih h2
      refine ⟨k, ?_, ?_⟩
      · simp [scanChildren, hasContainerAttr_eq_decide, hc, hk, List.filter]
      · simpa [List.filter, hc] using hk2

/-- The link function on a non-empty attribute that evaluates to a
configuration, once the scan has found the container. -/
theorem link_ok (element : NodeId) (attr : String) (w : World) (cfg : Config)
    (k : NodeId) (rest : List NodeId)
    (hattr : attr ≠ "") (heval : w.scopeEval attr = .ok (some cfg))
    (hscan : scanChildren w.dom (w.dom element).children = some (k, rest)) :
    link element (some attr) w =
      (.ok { uiOverlay := attr, config := cfg, overlayContainer := k,
             overlayElements :=
               resolveOverlayElements element rest (w.dom element).children cfg },
        { w with
          scopeAttr := some attr
          timeouts := w.timeouts ++ [Task.initialSetup
            { uiOverlay := attr, config := cfg, overlayContainer := k,
              overlayElements :=
                resolveOverlayElements element rest (w.dom element).children cfg }]
          resizeListeners := w.resizeListeners ++
            [{ uiOverlay := attr, config := cfg, overlayContainer := k,
               overlayElements :=
                 resolveOverlayElements element rest (w.dom element).children cfg }]
          watches := w.watches ++
            [{ uiOverlay := attr, config := cfg, overlayContainer := k,
               overlayElements :=
                 resolveOverlayElements element rest (w.dom element).children cfg }] }) := by
  simp [link, hattr, heval, hscan]

/-- The closure `updateOverlay` throws, before writing anything, when an entry of
`overlayElements` is `undefined`. -/
theorem updateOverlay_none (inst : Instance) (dom : Dom)
    (h : none ∈ inst.overlayElements) :
    updateOverlay inst dom = (.error .typeError, dom) := by
  simp [updateOverlay, calculateOuterDimensions, mapRects_none dom _ h]

/-! ## Claims on `calculateOuterDimensions` -/

/-- C1: for every non-empty list of elements, `calculateOuterDimensions` returns
the rectangle whose `top` is the least `offsetTop`, whose `left` is the least
`offsetLeft`, whose `bottom` is the greatest `offsetTop + offsetHeight` and
whose `right` is the greatest `offsetLeft + offsetWidth` over the elements. -/
theorem calculateOuterDimensions_min_max (dom : Dom) (ids : List NodeId) (h : ids ≠ []) :
    ∃ t b l r : Int,
      calculateOuterDimensions dom (ids.map some) =
        .ok { top := .fin t, bottom := .fin b, left := .fin l, right := .fin r } ∧
      IsLeast {x | ∃ e ∈ ids, x = (dom e).offsetTop} t ∧
      IsLeast {x | ∃ e ∈ ids, x = (dom e).offsetLeft} l ∧
      IsGreatest {x | ∃ e ∈ ids, x = (dom e).offsetTop + (dom e).offsetHeight} b ∧
      IsGreatest {x | ∃ e ∈ ids, x = (dom e).offsetLeft + (dom e).offsetWidth} r := by
  obtain ⟨t, b, l, r, hres, ⟨ht, htl⟩, ⟨hl, hll⟩, ⟨hb, hbl⟩, ⟨hr, hrl⟩⟩ :=
    calculateOuterDimensions_some dom ids h
  refine ⟨t, b, l, r, hres, ⟨ht, ?_⟩, ⟨hl, ?_⟩, ⟨hb, ?_⟩, ⟨hr, ?_⟩⟩
  · rintro x ⟨e, he, rfl⟩; exact htl e he
  · rintro x ⟨e, he, rfl⟩; exact hll e he
  · rintro x ⟨e, he, rfl⟩; exact hbl e he
  · rintro x ⟨e, he, rfl⟩; exact hrl e he

/-- Witness of C1 on the two boxes of the spec's example. -/
theorem calculateOuterDimensions_min_max_witness :
    ([0, 1] : List NodeId) ≠ [] ∧
    ∃ t b l r : Int,
      calculateOuterDimensions twoBoxes ([0, 1].map some) =
        .ok { top := .fin t, bottom := .fin b, left := .fin l, right := .fin r } ∧
      IsLeast {x | ∃ e ∈ ([0, 1] : List NodeId), x = (twoBoxes e).offsetTop} t ∧
      IsLeast {x | ∃ e ∈ ([0, 1] : List NodeId), x = (twoBoxes e).offsetLeft} l ∧
      IsGreatest {x | ∃ e ∈ ([0, 1] : List NodeId),
        x = (twoBoxes e).offsetTop + (twoBoxes e).offsetHeight} b ∧
      IsGreatest {x | ∃ e ∈ ([0, 1] : List NodeId),
        x = (twoBoxes e).offsetLeft + (twoBoxes e).offsetWidth} r :=
  ⟨by decide, calculateOuterDimensions_min_max twoBoxes [0, 1] (by decide)⟩

/-- C2 (as amended): for the elements `{offsetTop:10, offsetLeft:0,
offsetWidth:50, offsetHeight:20}` and `{offsetTop:0, offsetLeft:30,
offsetWidth:10, offsetHeight:10}`, `calculateOuterDimensions` returns
`{top:0, left:0, right:50, bottom:30}`: the right edges are `0 + 50` and
`30 + 10`. -/
theorem calculateOuterDimensions_example :
    calculateOuterDimensions twoBoxes [some 0, some 1] =
      .ok { top := .fin 0, left := .fin 0, right := .fin 50, bottom := .fin 30 } := by
  rfl

/-- C2 (as stated) fails: on the two elements of the example the returned
rectangle is not `{top:0, left:0, right:60, bottom:30}`. -/
theorem example_right_edge_is_not_60 :
    calculateOuterDimensions twoBoxes [some 0, some 1] ≠
      .ok { top := .fin 0, left := .fin 0, right := .fin 60, bottom := .fin 30 } := by
  simp [calculateOuterDimensions, mapRects, elementRect, twoBoxes, mathMin, mathMax]

/-- C3: for every non-empty list of elements the rectangle returned by
`calculateOuterDimensions` encloses the box of every element, and every
rectangle enclosing the boxes of all elements encloses the returned one. -/
theorem calculateOuterDimensions_minimal_enclosing (dom : Dom) (ids : List NodeId)
    (h : ids ≠ []) :
    ∃ t b l r : Int,
      calculateOuterDimensions dom (ids.map some) =
        .ok { top := .fin t, bottom := .fin b, left := .fin l, right := .fin r } ∧
      (∀ e ∈ ids, t ≤ (dom e).offsetTop ∧ l ≤ (dom e).offsetLeft ∧
        (dom e).offsetTop + (dom e).offsetHeight ≤ b ∧
        (dom e).offsetLeft + (dom e).offsetWidth ≤ r) ∧
      (∀ T B L R : Int,
        (∀ e ∈ ids, T ≤ (dom e).offsetTop ∧ L ≤ (dom e).offsetLeft ∧
          (dom e).offsetTop + (dom e).offsetHeight ≤ B ∧
          (dom e).offsetLeft + (dom e).offsetWidth ≤ R) →
        T ≤ t ∧ L ≤ l ∧ b ≤ B ∧ r ≤ R) := by
  obtain ⟨t, b, l, r, hres, ⟨ht, htl⟩, ⟨hl, hll⟩, ⟨hb, hbl⟩, ⟨hr, hrl⟩⟩ :=
    calculateOuterDimensions_some dom ids h
  refine ⟨t, b, l, r, hres, fun e he => ⟨htl e he, hll e he, hbl e he, hrl e he⟩, ?_⟩
  intro T B L R henc
  obtain ⟨e1, he1, rfl⟩ := ht
  obtain ⟨e2, he2, rfl⟩ := hl
  obtain ⟨e3, he3, rfl⟩ := hb
  obtain ⟨e4, he4, rfl⟩ := hr
  exact ⟨(henc e1 he1).1, (henc e2 he2).2.1, (henc e3 he3).2.2.1, (henc e4 he4).2.2.2⟩

/-- Witness of C3 on three children of the doc comment's markup. -/
theorem calculateOuterDimensions_minimal_enclosing_witness :
    ([2, 3, 4] : List NodeId) ≠ [] ∧
    ∃ t b l r : Int,
      calculateOuterDimensions docExample ([2, 3, 4].map some) =
        .ok { top := .fin t, bottom := .fin b, left := .fin l, right := .fin r } ∧
      (∀ e ∈ ([2, 3, 4] : List NodeId),
        t ≤ (docExample e).offsetTop ∧ l ≤ (docExample e).offsetLeft ∧
        (docExample e).offsetTop + (docExample e).offsetHeight ≤ b ∧
        (docExample e).offsetLeft + (docExample e).offsetWidth ≤ r) ∧
      (∀ T B L R : Int,
        (∀ e ∈ ([2, 3, 4] : List NodeId),
          T ≤ (docExample e).offsetTop ∧ L ≤ (docExample e).offsetLeft ∧
          (docExample e).offsetTop + (docExample e).offsetHeight ≤ B ∧
          (docExample e).offsetLeft + (docExample e).offsetWidth ≤ R) →
        T ≤ t ∧ L ≤ l ∧ b ≤ B ∧ r ≤ R) :=
  ⟨by decide, calculateOuterDimensions_minimal_enclosing docExample [2, 3, 4] (by decide)⟩

/-! ## Claims on the link function -/

/-- C4: in indexed mode (`config.children` a non-empty array of indices, each
below the number of direct children of the host) the elements to overlay are
the direct children of the host at these 0-based positions of the unfiltered
child list, the container included in the numbering, in the order of the
indices. -/
theorem link_indexed_children (element : NodeId) (attr : String) (w : World)
    (cfg : Config) (idxs : List Nat)
    (hattr : attr ≠ "") (heval : w.scopeEval attr = .ok (some cfg))
    (hchildren : cfg.children = some idxs) (hne : idxs ≠ [])
    (hrange : ∀ i ∈ idxs, i < (w.dom element).children.length)
    (hcont : ∃ c ∈ (w.dom element).children, Marked w.dom c) :
    ∃ inst, (link element (some attr) w).1 = .ok inst ∧
      inst.overlayElements = idxs.map (fun i => (w.dom element).children[i]?) ∧
      ∀ i ∈ idxs, ∃ c ∈ (w.dom element).children, (w.dom element).children[i]? = some c := by
  obtain ⟨k, rest, hscan⟩ := scanChildren_some w.dom _ hcont
  refine ⟨_, by rw [link_ok element attr w cfg k rest hattr heval hscan], ?_, ?_⟩
  · cases idxs with
    | nil => exact absurd rfl hne
    | cons i is => simp [resolveOverlayElements, hchildren]
  · intro i hi
    have hlt := hrange i hi
    exact ⟨(w.dom element).children[i], List.getElem_mem hlt,
      List.getElem?_eq_getElem hlt⟩

/-- Witness of C4: on the markup of the doc comment, `children: [2, 3]` selects
the third and the fourth direct child (nodes 3 and 4). -/
theorem link_indexed_children_witness :
    (∀ i ∈ [2, 3], i < (docExample 0).children.length) ∧
    (∃ c ∈ (docExample 0).children, Marked docExample c) ∧
    ∃ inst, (link 0 (some "cfg")
        (constWorld docExample { active := true, children := some [2, 3] })).1 = .ok inst ∧
      inst.overlayElements = [some 3, some 4] := by
  have hr : ∀ i ∈ [2, 3], i < (docExample 0).children.length := by decide
  have hc : ∃ c ∈ (docExample 0).children, Marked docExample c :=
    ⟨1, by decide, by decide⟩
  obtain ⟨inst, h1, h2, _⟩ := link_indexed_children 0 "cfg"
    (constWorld docExample { active := true, children := some [2, 3] })
    { active := true, children := some [2, 3] } [2, 3] (by decide) rfl rfl (by decide) hr hc
  exact ⟨hr, hc, inst, h1, h2⟩

/-- C5: in all-children mode (`config.children` an empty array), when exactly
one direct child of the host carries the `overlay-container` attribute, that
child is the container and the elements to overlay are all other direct
children of the host, in their original order. -/
theorem link_all_children (element : NodeId) (attr : String) (w : World) (cfg : Config)
    (hattr : attr ≠ "") (heval : w.scopeEval attr = .ok (some cfg))
    (hchildren : cfg.children = some [])
    (hone : ((w.dom element).children.filter fun c => decide (Marked w.dom c)).length = 1) :
    ∃ inst, (link element (some attr) w).1 = .ok inst ∧
      ((w.dom element).children.filter fun c => decide (Marked w.dom c)) =
        [inst.overlayContainer] ∧
      inst.overlayElements =
        ((w.dom element).children.filter fun c => !decide (Marked w.dom c)).map some := by
  obtain ⟨k, hscan, hk⟩ := scanChildren_unique w.dom _ hone
  refine ⟨_, by rw [link_ok element attr w cfg k _ hattr heval hscan], hk, ?_⟩
  simp [resolveOverlayElements, hchildren]

/-- Witness of C5: on the markup of the doc comment, `children: []` measures
the children 2, 3 and 4 and leaves out the container 1. -/
theorem link_all_children_witness :
    (((docExample 0).children.filter fun c => decide (Marked docExample c)).length = 1) ∧
    ∃ inst, (link 0 (some "cfg")
        (constWorld docExample { active := true, children := some [] })).1 = .ok inst ∧
      inst.overlayContainer = 1 ∧
      inst.overlayElements = [some 2, some 3, some 4] := by
  have hone : ((docExample 0).children.filter
      fun c => decide (Marked docExample c)).length = 1 := by decide
  obtain ⟨inst, h1, h2, h3⟩ := link_all_children 0 "cfg"
    (constWorld docExample { active := true, children := some [] })
    { active := true, children := some [] } (by decide) rfl rfl hone
  refine ⟨hone, inst, h1, ?_, ?_⟩
  · have h4 : ((docExample 0).children.filter fun c => decide (Marked docExample c)) = [1] := by
      decide
    have h5 : [inst.overlayContainer] = [1] := h2.symm.trans h4
    simpa using h5
  · rw [h3]
    decide

/-- C6: when the `ui-overlay` attribute is missing or empty, and likewise when
no direct child of the host carries the `overlay-container` attribute, the link
function throws; no inline style has been changed and no `$timeout` callback,
resize listener, `$watch` or `$on` listener has been registered. -/
theorem link_fails_fast (element : NodeId) (uiOverlay : Option String) (w : World)
    (h : uiOverlay = none ∨ uiOverlay = some "" ∨
      ∀ c ∈ (w.dom element).children, ¬ Marked w.dom c) :
    ∃ err, (link element uiOverlay w).1 = .error err ∧
      (link element uiOverlay w).2.dom = w.dom ∧
      (link element uiOverlay w).2.timeouts = w.timeouts ∧
      (link element uiOverlay w).2.resizeListeners = w.resizeListeners ∧
      (link element uiOverlay w).2.watches = w.watches ∧
      (link element uiOverlay w).2.collapseListeners = w.collapseListeners := by
  rcases h with rfl | rfl | h
  · exact ⟨_, rfl, rfl, rfl, rfl, rfl, rfl⟩
  · exact ⟨_, rfl, rfl, rfl, rfl, rfl, rfl⟩
  · cases uiOverlay with
    | none => exact ⟨_, rfl, rfl, rfl, rfl, rfl, rfl⟩
    | some attr =>
      by_cases hattr : attr = ""
      · subst hattr
        exact ⟨_, rfl, rfl, rfl, rfl, rfl, rfl⟩
      · have hscan := scanChildren_none w.dom _ h
        cases heval : w.scopeEval attr with
        | error e => exact ⟨e, by simp [link, hattr, heval]⟩
        | ok config =>
          exact ⟨.error ("Please provide an element with an overlay-container attribute " ++
            "as a direct child of the ui-overlay element."),
            by simp [link, hattr, heval, hscan]⟩

/-- Witness of C6: a host without the attribute, and a host with a
configuration whose children carry no `overlay-container` attribute. -/
theorem link_fails_fast_witness :
    (∃ err, (link 0 none (constWorld docExample { active := true })).1 = .error err ∧
      (link 0 none (constWorld docExample { active := true })).2.timeouts = []) ∧
    (∀ c ∈ (noContainer 0).children, ¬ Marked noContainer c) ∧
    (∃ err, (link 0 (some "cfg") (constWorld noContainer { active := true })).1 = .error err ∧
      (link 0 (some "cfg") (constWorld noContainer { active := true })).2.dom = noContainer ∧
      (link 0 (some "cfg") (constWorld noContainer { active := true })).2.timeouts = [] ∧
      (link 0 (some "cfg") (constWorld noContainer { active := true })).2.resizeListeners = [] ∧
      (link 0 (some "cfg") (constWorld noContainer { active := true })).2.watches = []) := by
  have hno : ∀ c ∈ (noContainer 0).children, ¬ Marked noContainer c := by decide
  obtain ⟨e1, h1, _, h3, _⟩ :=
    link_fails_fast 0 none (constWorld docExample { active := true }) (Or.inl rfl)
  obtain ⟨e2, k1, k2, k3, k4, k5, _⟩ :=
    link_fails_fast 0 (some "cfg") (constWorld noContainer { active := true })
      (Or.inr (Or.inr hno))
  exact ⟨⟨e1, h1, h3⟩, hno, e2, k1, k2, k3, k4, k5⟩

/-- C10: when `config.children` contains an index that is not below the number
of direct children of the host, the link function still completes (its three
registrations are made) and `overlayElements` holds `undefined` at the position
of that index; every later `updateOverlay` throws and leaves the document, and
so the container's `top`, `left`, `width` and `height`, unchanged. -/
theorem link_index_out_of_range (element : NodeId) (attr : String) (w : World)
    (cfg : Config) (idxs : List Nat)
    (hattr : attr ≠ "") (heval : w.scopeEval attr = .ok (some cfg))
    (hchildren : cfg.children = some idxs)
    (hcont : ∃ c ∈ (w.dom element).children, Marked w.dom c)
    (hout : ∃ i ∈ idxs, (w.dom element).children.length ≤ i) :
    ∃ inst, (link element (some attr) w).1 = .ok inst ∧
      (link element (some attr) w).2.timeouts = w.timeouts ++ [Task.initialSetup inst] ∧
      (link element (some attr) w).2.resizeListeners = w.resizeListeners ++ [inst] ∧
      (link element (some attr) w).2.watches = w.watches ++ [inst] ∧
      (∀ k i : Nat, idxs[k]? = some i → (w.dom element).children.length ≤ i →
        inst.overlayElements[k]? = some (none : Option NodeId)) ∧
      ∀ dom : Dom, ∃ err, updateOverlay inst dom = (.error err, dom) := by
  obtain ⟨c, rest, hscan⟩ := scanChildren_some w.dom _ hcont
  have hres : resolveOverlayElements element rest (w.dom element).children cfg =
      idxs.map (fun i => (w.dom element).children[i]?) := by
    cases idxs with
    | nil =>
      obtain ⟨i, hi, _⟩ := hout
      cases hi
    | cons i is => simp [resolveOverlayElements, hchildren]
  rw [link_ok element attr w cfg c rest hattr heval hscan]
  refine ⟨_, rfl, rfl, rfl, rfl, ?_, ?_⟩
  · intro k i hk hi
    simp only [hres, List.getElem?_map, hk, Option.map_some']
    rw [List.getElem?_eq_none hi]
  · intro dom
    refine ⟨.typeError, updateOverlay_none _ dom ?_⟩
    obtain ⟨i, hi, hlen⟩ := hout
    simp only [hres, List.mem_map]
    exact ⟨i, hi, List.getElem?_eq_none hlen⟩

/-- Witness of C10: on the markup of the doc comment (four children),
`children: [2, 7]` yields `[child 3, undefined]` and `updateOverlay` throws. -/
theorem link_index_out_of_range_witness :
    (∃ c ∈ (docExample 0).children, Marked docExample c) ∧
    (∃ i ∈ [2, 7], (docExample 0).children.length ≤ i) ∧
    ∃ inst, (link 0 (some "cfg")
        (constWorld docExample { active := true, children := some [2, 7] })).1 = .ok inst ∧
      inst.overlayElements[1]? = some (none : Option NodeId) ∧
      ∃ err, updateOverlay inst docExample = (.error err, docExample) := by
  have hc : ∃ c ∈ (docExample 0).children, Marked docExample c :=
    ⟨1, by decide, by decide⟩
  have ho : ∃ i ∈ [2, 7], (docExample 0).children.length ≤ i := ⟨7, by decide, by decide⟩
  obtain ⟨inst, h1, _, _, _, h5, h6⟩ := link_index_out_of_range 0 "cfg"
    (constWorld docExample { active := true, children := some [2, 7] })
    { active := true, children := some [2, 7] } [2, 7] (by decide) rfl rfl hc ho
  exact ⟨hc, ho, inst, h1, h5 1 7 rfl (by decide), h6 docExample⟩

/-! ## Claims on the registered callbacks -/

/-- C7: on a resize event, whatever the scope and the `active` flag are, the
resize handler computes the union of the measured elements from the document as
it is at the event and sets the container's `top` and `left` to the union's
least `offsetTop` and `offsetLeft` and its `width` and `height` to the extent
of the union, each followed by `px`; the values written depend on the current
geometry only, not on the style the container had before. -/
theorem resizeHandler_recomputes (inst : Instance) (w : World) (ids : List NodeId)
    (hels : inst.overlayElements = ids.map some) (hne : ids ≠ []) :
    ∃ t b l r : Int,
      IsLeast {x | ∃ e ∈ ids, x = (w.dom e).offsetTop} t ∧
      IsLeast {x | ∃ e ∈ ids, x = (w.dom e).offsetLeft} l ∧
      IsGreatest {x | ∃ e ∈ ids, x = (w.dom e).offsetTop + (w.dom e).offsetHeight} b ∧
      IsGreatest {x | ∃ e ∈ ids, x = (w.dom e).offsetLeft + (w.dom e).offsetWidth} r ∧
      (resizeHandler inst w).1 = .ok () ∧
      ((resizeHandler inst w).2.dom inst.overlayContainer).style.top = toString t ++ "px" ∧
      ((resizeHandler inst w).2.dom inst.overlayContainer).style.left = toString l ++ "px" ∧
      ((resizeHandler inst w).2.dom inst.overlayContainer).style.width =
        toString (r - l) ++ "px" ∧
      ((resizeHandler inst w).2.dom inst.overlayContainer).style.height =
        toString (b - t) ++ "px" := by
  obtain ⟨t, b, l, r, hres, ⟨ht, htl⟩, ⟨hl, hll⟩, ⟨hb, hbl⟩, ⟨hr, hrl⟩⟩ :=
    calculateOuterDimensions_some w.dom ids hne
  refine ⟨t, b, l, r, ⟨ht, ?_⟩, ⟨hl, ?_⟩, ⟨hb, ?_⟩, ⟨hr, ?_⟩, ?_⟩
  · rintro x ⟨e, he, rfl⟩; exact htl e he
  · rintro x ⟨e, he, rfl⟩; exact hll e he
  · rintro x ⟨e, he, rfl⟩; exact hbl e he
  · rintro x ⟨e, he, rfl⟩; exact hrl e he
  · simp [resizeHandler, updateOverlay, hels, hres, Dom.setStyle, JSNum.toStr, JSNum.sub]

/-- Witness of C7: with the overlay inactive, a resize on the doc comment's
markup sets the container to the union of the children 2, 3 and 4. -/
theorem resizeHandler_recomputes_witness :
    (docInstance false).overlayElements = [2, 3, 4].map some ∧
    ([2, 3, 4] : List NodeId) ≠ [] ∧
    (∃ t b l r : Int,
      IsLeast {x | ∃ e ∈ ([2, 3, 4] : List NodeId), x = (docExample e).offsetTop} t ∧
      IsLeast {x | ∃ e ∈ ([2, 3, 4] : List NodeId), x = (docExample e).offsetLeft} l ∧
      IsGreatest {x | ∃ e ∈ ([2, 3, 4] : List NodeId),
        x = (docExample e).offsetTop + (docExample e).offsetHeight} b ∧
      IsGreatest {x | ∃ e ∈ ([2, 3, 4] : List NodeId),
        x = (docExample e).offsetLeft + (docExample e).offsetWidth} r ∧
      (resizeHandler (docInstance false)
        (constWorld docExample { active := false })).1 = .ok () ∧
      ((resizeHandler (docInstance false)
        (constWorld docExample { active := false })).2.dom 1).style.top =
          toString t ++ "px" ∧
      ((resizeHandler (docInstance false)
        (constWorld docExample { active := false })).2.dom 1).style.left =
          toString l ++ "px" ∧
      ((resizeHandler (docInstance false)
        (constWorld docExample { active := false })).2.dom 1).style.width =
          toString (r - l) ++ "px" ∧
      ((resizeHandler (docInstance false)
        (constWorld docExample { active := false })).2.dom 1).style.height =
          toString (b - t) ++ "px") ∧
    ((resizeHandler (docInstance false)
      (constWorld docExample { active := false })).2.dom 1).style =
        { top := "0px", left := "0px", width := "200px", height := "90px" } :=
  ⟨rfl, by decide,
    resizeHandler_recomputes (docInstance false) (constWorld docExample { active := false })
      [2, 3, 4] rfl (by decide),
    by decide⟩

/-- C8: the code at the failing input.  When `active` goes false, true, false
and the callback queued by the change to true runs only after the change to
false has been handled, no callback is left and the container's display is
`block`, not `none`; when the callback runs in between, the display ends as
`none`. -/
theorem toggle_callback_last_shows_overlay :
    toggleCallbackLast.timeouts = [] ∧
    (toggleCallbackLast.dom 1).style.display = "block" ∧
    toggleCallbackFirst.timeouts = [] ∧
    (toggleCallbackFirst.dom 1).style.display = "none" := by
  decide

/-- C9: the code at the failing input.  With `active` true and a container
without child elements, the deferred initial setup sets the display to `table`
while the callback queued by the `$watch` listener sets it to `block`. -/
theorem initialSetup_display_ignores_content :
    (docExample 1).children = [] ∧
    (docInstance true).config.active = true ∧
    ((runTask (Task.initialSetup (docInstance true))
      (constWorld docExample { active := true })).2.dom 1).style.display = "table" ∧
    ((runTask (Task.watchShow (docInstance true))
      (constWorld docExample { active := true })).2.dom 1).style.display = "block" := by
  decide

end UiOverlay
